import Mathlib

/-!
Shallow embedding of the tool-calling control loop of
`backend/ai_generator.py` (class `AIGenerator`) and proofs of the frozen
claims about it.

Modelling conventions:
* A provider content block (`block.type` in Python) is an explicit variant
  type `Block` with constructors for `"text"` blocks, `"tool_use"` blocks
  and any other block type.
* A provider response is `Response` = stop reason (a string, compared
  against `"tool_use"` exactly as the Python code does) plus content blocks.
* The tool manager (`tool_manager.execute_tool(name, **input)`) is a
  function `ToolManager` returning `Except String String`: `.error e`
  models the Python call raising an exception whose `str` is `e`, `.ok r`
  models a normal string result.  The `try/except` of `_execute_tools`
  becomes a `match` on this value.
* The provider client (`self.client.messages.create`) is a function
  `Nat → Response` giving the response to the n-th model call, so the
  theorems quantify over every possible sequence of provider responses.
  Each call's request parameters that the code constructs (the message
  list, the system content, and whether tools / tool_choice auto are
  attached) are recorded in a `Request`; the constant base parameters
  (model id, temperature 0, max_tokens 800) are the same on every call and
  are not repeated in the record.
* Mutable message lists become explicit list values; `messages.append(x)`
  is `messages ++ [x]`.  A separate object-level embedding with an
  explicit heap of lists (`handleToolLoopH`) models `messages.copy()` and
  in-place `append` for the frame property about the caller's list.
-/

/-- `MAX_TOOL_ROUNDS = 2` from `ai_generator.py`. -/
def MAX_TOOL_ROUNDS : Nat := 2

/-- A content block of a provider response or of an assistant message:
`Block.text s` is a block with `type == "text"` and text `s`;
`Block.toolUse id name input` is a block with `type == "tool_use"`, call
identifier `id`, tool name `name` and keyword arguments `input`;
`Block.other` is any block of another type. -/
inductive Block where
  | text (s : String)
  | toolUse (id : String) (name : String) (input : List (String × String))
  | other
deriving DecidableEq, Repr

/-- A provider response: `stop_reason` and the list of content blocks. -/
structure Response where
  stop_reason : String
  content : List Block
deriving DecidableEq, Repr

/-- A tool-result entry as built by `_execute_tools`: the dict
`{"type": "tool_result", "tool_use_id": ..., "content": ..., ["is_error"]}`.
The Python success branch omits the `is_error` key; that is modelled as
`is_error = false`. -/
structure ToolResult where
  tool_use_id : String
  content : String
  is_error : Bool
deriving DecidableEq, Repr

/-- The content of a conversation message: the initial user query is a
plain string, an assistant tool-use turn carries response blocks, and the
tool-results turn carries a list of tool results. -/
inductive MsgContent where
  | str (s : String)
  | blocks (bs : List Block)
  | results (rs : List ToolResult)
deriving DecidableEq, Repr

/-- A conversation message `{"role": ..., "content": ...}`. -/
structure Message where
  role : String
  content : MsgContent
deriving DecidableEq, Repr

/-- A tool definition as supplied to the model.  The control loop never
inspects a definition; it only passes the list through, so only the fields
named by the spec are kept. -/
structure ToolDef where
  name : String
  description : String
deriving DecidableEq, Repr

/-- The tool executor: `execute_tool(name, **input)`.  `.error e` models
the call raising an exception with message `e`. -/
def ToolManager : Type := String → List (String × String) → Except String String

/-- The request parameters of one model call, as assembled by the code:
the message list, the system content, and the tools attached to the call
(`none` when the code does not put `"tools"`/`"tool_choice"` into the
parameters, `some ts` when it attaches `ts` with tool_choice auto). -/
structure Request where
  messages : List Message
  system : String
  tools : Option (List ToolDef)
deriving DecidableEq, Repr

namespace AIGenerator

/-- One step of the `for block in response.content` loop of
`_execute_tools`: accumulator is `(tool_results, has_error)`. -/
def executeToolsStep (tm : ToolManager) (acc : List ToolResult × Bool)
    (block : Block) : List ToolResult × Bool :=
  match block with
  | Block.toolUse id name input =>
      match tm name input with
      | Except.ok result => (acc.1 ++ [⟨id, result, false⟩], acc.2)
      | Except.error e => (acc.1 ++ [⟨id, "Error: " ++ e, true⟩], true)
  | _ => acc

/-- `_execute_tools`: execute all tool calls of a response, returning
`(tool_results, has_error)`. -/
def executeTools (tm : ToolManager) (response : Response) :
    List ToolResult × Bool :=
  response.content.foldl (executeToolsStep tm) ([], false)

/-- `_extract_text_response`: the text of the first block whose type is
`"text"`, or `""` when there is none. -/
def extractTextResponse (response : Response) : String :=
  go response.content
where
  /-- The `for block in response.content` traversal. -/
  go : List Block → String
  | [] => ""
  | Block.text s :: _ => s
  | _ :: bs => go bs

/-- Whether a block has `type == "text"`. -/
def isTextBlock : Block → Bool
  | Block.text _ => true
  | _ => false

/-- The tool-use blocks of a content list, in order, as
`(id, name, input)` triples. -/
def toolUseBlocks : List Block → List (String × String × List (String × String))
  | [] => []
  | Block.toolUse id name input :: bs => (id, name, input) :: toolUseBlocks bs
  | _ :: bs => toolUseBlocks bs

/-- The tool result `_execute_tools` produces for one tool-use block. -/
def execBlock (tm : ToolManager)
    (b : String × String × List (String × String)) : ToolResult :=
  match tm b.2.1 b.2.2 with
  | Except.ok result => ⟨b.1, result, false⟩
  | Except.error e => ⟨b.1, "Error: " ++ e, true⟩

/-- What the loop records about one executed round: the tool-use response
the round processed, and the request of the model call made at the end of
the round. -/
structure RoundLog where
  resp : Response
  req : Request
deriving DecidableEq, Repr

/-- The body of the `while` loop of `_handle_tool_loop`.  `client n` is
the response to the n-th follow-up model call made by the loop.  Returns
the response held in `response` when the loop exits, together with one
`RoundLog` per executed round, in order.  The `if has_error: break` of the
source is the early return in the `er.2` branch.

The loop condition is
`response.stop_reason == "tool_use" and round_count < MAX_TOOL_ROUNDS`;
so that the definition computes by kernel reduction, the second conjunct
is carried as the structural fuel `fuel = MAX_TOOL_ROUNDS - roundCount`,
kept in lockstep with `roundCount` (`fuel ≠ 0 ↔ roundCount <
MAX_TOOL_ROUNDS` on that invariant; `handleToolLoopAux` below establishes
it and `handleToolLoopAux_eq_stop` / `_eq_err` / `_eq_ok` recover the
loop-condition reading). -/
def handleToolLoopGo (client : Nat → Response) (tm : ToolManager)
    (tools : List ToolDef) (system_content : String) :
    (fuel : Nat) → (response : Response) → (messages : List Message) →
    (roundCount : Nat) → Response × List RoundLog :=
  fun fuel response messages roundCount =>
    if response.stop_reason = "tool_use" then
      match fuel with
      | 0 => (response, [])
      | fuel' + 1 =>
        let roundCount' := roundCount + 1
        let messages1 := messages ++ [⟨"assistant", MsgContent.blocks response.content⟩]
        let er := executeTools tm response
        let messages2 := messages1 ++ [⟨"user", MsgContent.results er.1⟩]
        let includeTools := !er.2 && decide (roundCount' < MAX_TOOL_ROUNDS)
        let next_params : Request :=
          ⟨messages2, system_content, if includeTools then some tools else none⟩
        let response' := client roundCount
        let log : RoundLog := ⟨response, next_params⟩
        if er.2 then (response', [log])
        else
          let rest := handleToolLoopGo client tm tools system_content fuel'
            response' messages2 roundCount'
          (rest.1, log :: rest.2)
    else (response, [])

/-- The `while` loop of `_handle_tool_loop`, entered with round counter
`roundCount` (the loop bound `roundCount < MAX_TOOL_ROUNDS` supplies the
fuel). -/
def handleToolLoopAux (client : Nat → Response) (tm : ToolManager)
    (tools : List ToolDef) (system_content : String)
    (response : Response) (messages : List Message) (roundCount : Nat) :
    Response × List RoundLog :=
  handleToolLoopGo client tm tools system_content
    (MAX_TOOL_ROUNDS - roundCount) response messages roundCount

/-- The result of `_handle_tool_loop`: the returned text, the final value
of `response`, and the per-round log. -/
structure LoopResult where
  text : String
  finalResponse : Response
  log : List RoundLog
deriving DecidableEq, Repr

/-- `_handle_tool_loop`: copies the message list (the copy is the value
`messages` itself in this value-level embedding; see `handleToolLoopH` for
the object-level frame property), runs the round loop from
`round_count = 0`, and extracts the text of the last response. -/
def handleToolLoop (client : Nat → Response) (tm : ToolManager)
    (tools : List ToolDef) (system_content : String)
    (response : Response) (messages : List Message) : LoopResult :=
  let r := handleToolLoopAux client tm tools system_content response messages 0
  ⟨extractTextResponse r.1, r.1, r.2⟩

/-- The follow-up requests issued by the loop, one per round, in order. -/
def LoopResult.requests (lr : LoopResult) : List Request :=
  lr.log.map RoundLog.req

/-- `SYSTEM_PROMPT` of `AIGenerator`.  The text is never inspected by the
control flow; only its use in building the system content matters here, so
the constant stands for the full prompt literal of the source. -/
def SYSTEM_PROMPT : String :=
  " You are an AI assistant specialized in course materials and educational content with access to tools for course information."

/-- The result of `generate_response`: the returned text, every request it
issued (the initial call first, then the loop's follow-up calls), and the
loop's per-round log (empty when the tool loop was not entered). -/
structure GenResult where
  text : String
  requests : List Request
  loopLog : List RoundLog
deriving DecidableEq, Repr

/-- `generate_response`.  `client 0` is the initial response; `client (n+1)`
answers the loop's n-th follow-up call.  `tools = []` models both an empty
tools list and an absent one (Python falsy `tools`); `tool_manager = none`
models an absent tool manager. -/
def generate_response (client : Nat → Response) (query : String)
    (conversation_history : Option String) (tools : List ToolDef)
    (tool_manager : Option ToolManager) : GenResult :=
  let system_content :=
    match conversation_history with
    | some h => SYSTEM_PROMPT ++ "\n\nPrevious conversation:\n" ++ h
    | none => SYSTEM_PROMPT
  let messages : List Message := [⟨"user", MsgContent.str query⟩]
  let initReq : Request :=
    ⟨messages, system_content, if tools ≠ [] then some tools else none⟩
  let response := client 0
  match tool_manager with
  | some tm =>
      if response.stop_reason = "tool_use" ∧ tools ≠ [] then
        let lr := handleToolLoop (fun n => client (n + 1)) tm tools
          system_content response messages
        ⟨lr.text, initReq :: lr.requests, lr.log⟩
      else ⟨extractTextResponse response, [initReq], []⟩
  | none => ⟨extractTextResponse response, [initReq], []⟩

/-! ### Object-level embedding of the message-list mutation

`_handle_tool_loop` receives a reference to the caller's message list and
immediately rebinds `messages = messages.copy()`.  To state the frame
property (the caller's list object is unchanged) the list operations are
modelled on an explicit heap of list objects. -/

/-- A heap of Python list objects holding message lists, indexed by
reference.  `messages.append(x)` mutates the list a reference points to;
`messages.copy()` allocates a fresh reference with the same value. -/
abbrev MsgHeap : Type := List (List Message)

/-- In-place `append` on the list object at reference `r`. -/
def heapAppend (h : MsgHeap) (r : Nat) (m : Message) : MsgHeap :=
  h.set r (h.getD r [] ++ [m])

/-- Object-level rendering of the round loop of `_handle_tool_loop`: the
same control flow as `handleToolLoopGo`, with the message-list appends
performed in place on the heap cell `msgsRef` (the local `messages`
variable).  Request assembly and text extraction do not touch the heap
and are omitted here; the final heap is returned instead. -/
def handleToolLoopHGo (client : Nat → Response) (tm : ToolManager) :
    (fuel : Nat) → (response : Response) → (heap : MsgHeap) →
    (msgsRef : Nat) → (roundCount : Nat) → Response × MsgHeap :=
  fun fuel response heap msgsRef roundCount =>
    if response.stop_reason = "tool_use" then
      match fuel with
      | 0 => (response, heap)
      | fuel' + 1 =>
        let heap1 := heapAppend heap msgsRef
          ⟨"assistant", MsgContent.blocks response.content⟩
        let er := executeTools tm response
        let heap2 := heapAppend heap1 msgsRef ⟨"user", MsgContent.results er.1⟩
        let response' := client roundCount
        if er.2 then (response', heap2)
        else handleToolLoopHGo client tm fuel' response' heap2 msgsRef (roundCount + 1)
    else (response, heap)

/-- Object-level `_handle_tool_loop`: the caller passes the reference
`msgsRef` of its message list; `messages = messages.copy()` allocates a
fresh cell at the end of the heap, and all appends of the loop go to that
fresh cell. -/
def handleToolLoopH (client : Nat → Response) (tm : ToolManager)
    (heap : MsgHeap) (msgsRef : Nat) (response : Response) : Response × MsgHeap :=
  let workRef := heap.length
  let heap' := heap ++ [heap.getD msgsRef []]
  handleToolLoopHGo client tm MAX_TOOL_ROUNDS response heap' workRef 0

/-! ### Concrete scenario values used to instantiate the theorems -/

/-- An initial response that wants a tool and carries no text block. -/
def exInit : Response :=
  ⟨"tool_use", [Block.toolUse "t1" "search_course_content" []]⟩

/-- A plain end-of-turn response with one text block. -/
def exEnd : Response := ⟨"end_turn", [Block.text "Final answer."]⟩

/-- A provider that always ends the turn. -/
def exClientEnd : Nat → Response := fun _ => exEnd

/-- A provider that keeps requesting tools forever. -/
def exClientTool : Nat → Response := fun _ => exInit

/-- A tool manager whose every invocation succeeds. -/
def exTmOk : ToolManager := fun _ _ => Except.ok "ML is a subset of AI"

/-- A tool manager whose every invocation raises. -/
def exTmErr : ToolManager := fun _ _ => Except.error "boom"

/-- A one-tool definitions list. -/
def exTools : List ToolDef := [⟨"search_course_content", "Search course content"⟩]

/-- The message list holding the initial user query. -/
def exMsgs : List Message := [⟨"user", MsgContent.str "What is ML?"⟩]

/-- A response whose first text block is preceded by a non-text block. -/
def exTextResp : Response :=
  ⟨"end_turn", [Block.other, Block.text "hi", Block.text "later"]⟩

/-- A one-object heap: the caller's message list at reference 0. -/
def exHeap : MsgHeap := [exMsgs]

/-! ### Structural lemmas about `_execute_tools` and the round loop -/

/-- Unfolding the `for block in response.content` fold of `_execute_tools`
over an arbitrary accumulator. -/
theorem executeTools_go (tm : ToolManager) (bs : List Block) :
    ∀ acc : List ToolResult × Bool,
      bs.foldl (executeToolsStep tm) acc =
        (acc.1 ++ (toolUseBlocks bs).map (execBlock tm),
         acc.2 || ((toolUseBlocks bs).map (execBlock tm)).any ToolResult.is_error) := by
  induction bs with
  | nil => intro acc; simp [toolUseBlocks]
  | cons b bs ih =>
      intro acc
      cases b with
      | text s => simpa [executeToolsStep, toolUseBlocks] using ih acc
      | other => simpa [executeToolsStep, toolUseBlocks] using ih acc
      | toolUse id name input =>
          simp only [List.foldl_cons, executeToolsStep, toolUseBlocks]
          cases htm : tm name input with
          | ok r =>
              rw [ih]
              simp [execBlock, htm]
          | error e =>
              rw [ih]
              simp [execBlock, htm]

/-- `_execute_tools` produces exactly one result per tool-use block of the
response, in order, and `has_error` is set exactly when some produced
result carries the error flag. -/
theorem executeTools_eq (tm : ToolManager) (response : Response) :
    executeTools tm response =
      ((toolUseBlocks response.content).map (execBlock tm),
       ((toolUseBlocks response.content).map (execBlock tm)).any ToolResult.is_error) := by
  simpa [executeTools] using executeTools_go tm response.content ([], false)

/-- The result built for a tool-use block keeps that block's call
identifier, in both the success and the exception branch. -/
theorem execBlock_id (tm : ToolManager)
    (b : String × String × List (String × String)) :
    (execBlock tm b).tool_use_id = b.1 := by
  cases htm : tm b.2.1 b.2.2 <;> simp [execBlock, htm]

/-- A tool-use block of a content list appears, with its fields, in
`toolUseBlocks` of that list. -/
theorem toolUseBlocks_mem (id name : String) (input : List (String × String)) :
    ∀ bs : List Block, Block.toolUse id name input ∈ bs →
      (id, name, input) ∈ toolUseBlocks bs := by
  intro bs
  induction bs with
  | nil => intro h; cases h
  | cons b bs ih =>
      intro h
      rcases List.mem_cons.mp h with hb | hb
      · rw [← hb]
        simp [toolUseBlocks]
      · have hm := ih hb
        cases b <;> simp [toolUseBlocks, hm]

/-- Loop exit: if the last response does not want a tool, or the round
budget is spent, the loop body does not run. -/
theorem handleToolLoopAux_eq_stop (client : Nat → Response) (tm : ToolManager)
    (tools : List ToolDef) (sys : String) (response : Response)
    (messages : List Message) (roundCount : Nat)
    (h : ¬(response.stop_reason = "tool_use" ∧ roundCount < MAX_TOOL_ROUNDS)) :
    handleToolLoopAux client tm tools sys response messages roundCount
      = (response, []) := by
  rw [handleToolLoopAux, handleToolLoopGo.eq_def]
  by_cases h1 : response.stop_reason = "tool_use"
  · have h2 : ¬roundCount < MAX_TOOL_ROUNDS := fun h2 => h ⟨h1, h2⟩
    have : MAX_TOOL_ROUNDS - roundCount = 0 := by omega
    rw [this]
    simp [h1]
  · simp [h1]

/-- One erroring round: the loop appends the assistant content and the
tool results, makes one model call with no tools attached, and exits with
that call's response. -/
theorem handleToolLoopAux_eq_err (client : Nat → Response) (tm : ToolManager)
    (tools : List ToolDef) (sys : String) (response : Response)
    (messages : List Message) (roundCount : Nat)
    (h1 : response.stop_reason = "tool_use") (h2 : roundCount < MAX_TOOL_ROUNDS)
    (herr : (executeTools tm response).2 = true) :
    handleToolLoopAux client tm tools sys response messages roundCount
      = (client roundCount,
         [⟨response,
           ⟨messages ++ [⟨"assistant", MsgContent.blocks response.content⟩,
                         ⟨"user", MsgContent.results (executeTools tm response).1⟩],
            sys, none⟩⟩]) := by
  rw [handleToolLoopAux]
  have : MAX_TOOL_ROUNDS - roundCount = (MAX_TOOL_ROUNDS - (roundCount + 1)) + 1 := by omega
  rw [this, handleToolLoopGo.eq_def]
  simp [h1, herr]

/-- One successful round: the loop appends the assistant content and the
tool results, makes one model call (tools attached exactly when another
round is still allowed), and continues with the new response and the
incremented round counter. -/
theorem handleToolLoopAux_eq_ok (client : Nat → Response) (tm : ToolManager)
    (tools : List ToolDef) (sys : String) (response : Response)
    (messages : List Message) (roundCount : Nat)
    (h1 : response.stop_reason = "tool_use") (h2 : roundCount < MAX_TOOL_ROUNDS)
    (herr : (executeTools tm response).2 = false) :
    handleToolLoopAux client tm tools sys response messages roundCount
      = ((handleToolLoopAux client tm tools sys (client roundCount)
            (messages ++ [⟨"assistant", MsgContent.blocks response.content⟩,
                          ⟨"user", MsgContent.results (executeTools tm response).1⟩])
            (roundCount + 1)).1,
         ⟨response,
           ⟨messages ++ [⟨"assistant", MsgContent.blocks response.content⟩,
                         ⟨"user", MsgContent.results (executeTools tm response).1⟩],
            sys,
            if roundCount + 1 < MAX_TOOL_ROUNDS then some tools else none⟩⟩
           :: (handleToolLoopAux client tm tools sys (client roundCount)
                (messages ++ [⟨"assistant", MsgContent.blocks response.content⟩,
                              ⟨"user", MsgContent.results (executeTools tm response).1⟩])
                (roundCount + 1)).2) := by
  conv_lhs => rw [handleToolLoopAux]
  have : MAX_TOOL_ROUNDS - roundCount = (MAX_TOOL_ROUNDS - (roundCount + 1)) + 1 := by omega
  rw [this, handleToolLoopGo.eq_def]
  rw [handleToolLoopAux]
  simp [h1, herr]

/-- Invariants of the round loop, by induction on the remaining round
budget: the number of executed rounds is bounded by the remaining budget,
and every executed round processed a tool-use response, sent the system
content, attached tools exactly when the round did not error and the
incremented round counter was still below the maximum, appended the
assistant content and the matching tool results as the last two messages
of its request, and — if it errored — was the last round, the loop
returning the response of that round's model call. -/
theorem handleToolLoopAux_spec (client : Nat → Response) (tm : ToolManager)
    (tools : List ToolDef) (sys : String) :
    ∀ (fuel : Nat) (response : Response) (messages : List Message) (roundCount : Nat),
      MAX_TOOL_ROUNDS - roundCount ≤ fuel →
      (handleToolLoopAux client tm tools sys response messages roundCount).2.length
          ≤ MAX_TOOL_ROUNDS - roundCount
      ∧ ∀ (i : Nat)
          (h : i < (handleToolLoopAux client tm tools sys response messages roundCount).2.length),
          ((handleToolLoopAux client tm tools sys response messages roundCount).2.get
              ⟨i, h⟩).resp.stop_reason = "tool_use"
          ∧ ((handleToolLoopAux client tm tools sys response messages roundCount).2.get
              ⟨i, h⟩).req.system = sys
          ∧ ((handleToolLoopAux client tm tools sys response messages roundCount).2.get
              ⟨i, h⟩).req.tools =
              (if (executeTools tm ((handleToolLoopAux client tm tools sys response messages
                      roundCount).2.get ⟨i, h⟩).resp).2 = false
                  ∧ roundCount + i + 1 < MAX_TOOL_ROUNDS
               then some tools else none)
          ∧ (∃ pre, ((handleToolLoopAux client tm tools sys response messages roundCount).2.get
              ⟨i, h⟩).req.messages =
              pre ++ [⟨"assistant", MsgContent.blocks ((handleToolLoopAux client tm tools sys
                        response messages roundCount).2.get ⟨i, h⟩).resp.content⟩,
                      ⟨"user", MsgContent.results (executeTools tm ((handleToolLoopAux client tm
                        tools sys response messages roundCount).2.get ⟨i, h⟩).resp).1⟩])
          ∧ ((executeTools tm ((handleToolLoopAux client tm tools sys response messages
                roundCount).2.get ⟨i, h⟩).resp).2 = true →
              (handleToolLoopAux client tm tools sys response messages roundCount).2.length = i + 1
              ∧ (handleToolLoopAux client tm tools sys response messages roundCount).1
                  = client (roundCount + i)) := by
  intro fuel
  induction fuel with
  | zero =>
      intro response messages roundCount hfuel
      have hrc : ¬(response.stop_reason = "tool_use" ∧ roundCount < MAX_TOOL_ROUNDS) := by
        rintro ⟨-, h2⟩; omega
      rw [handleToolLoopAux_eq_stop client tm tools sys response messages roundCount hrc]
      simp
  | succ fuel ih =>
      intro response messages roundCount hfuel
      by_cases hcond : response.stop_reason = "tool_use" ∧ roundCount < MAX_TOOL_ROUNDS
      · obtain ⟨h1, h2⟩ := hcond
        by_cases herr : (executeTools tm response).2 = true
        · rw [handleToolLoopAux_eq_err client tm tools sys response messages roundCount h1 h2 herr]
          refine ⟨by simp only [List.length_singleton]; omega, ?_⟩
          intro i h
          simp only [List.length_singleton] at h
          interval_cases i
          refine ⟨h1, rfl, by simp [herr], ⟨messages, rfl⟩, fun _ => ⟨rfl, by simp⟩⟩
        · rw [Bool.not_eq_true] at herr
          rw [handleToolLoopAux_eq_ok client tm tools sys response messages roundCount h1 h2 herr]
          obtain ⟨hlen, hspec⟩ := ih (client roundCount)
            (messages ++ [⟨"assistant", MsgContent.blocks response.content⟩,
                          ⟨"user", MsgContent.results (executeTools tm response).1⟩])
            (roundCount + 1) (by omega)
          refine ⟨by simp only [List.length_cons]; omega, ?_⟩
          intro i h
          match i with
          | 0 =>
              refine ⟨h1, rfl, by simp [herr], ⟨messages, rfl⟩, fun hc => by simp [herr] at hc⟩
          | j + 1 =>
              simp only [List.length_cons, Nat.add_lt_add_iff_right] at h
              obtain ⟨ha, hb, hc, hd, he⟩ := hspec j h
              simp only [List.get_cons_succ]
              refine ⟨ha, hb, ?_, hd, fun hx => ?_⟩
              · rw [hc]
                have : roundCount + 1 + j + 1 = roundCount + (j + 1) + 1 := by omega
                rw [this]
              · obtain ⟨hy, hz⟩ := he hx
                refine ⟨by simp [List.length_cons, hy], ?_⟩
                rw [hz]
                have : roundCount + 1 + j = roundCount + (j + 1) := by omega
                rw [this]
      · rw [handleToolLoopAux_eq_stop client tm tools sys response messages roundCount hcond]
        simp

/-- Every result of `_execute_tools` carries the call identifier of its
originating tool-use block, position by position. -/
theorem map_execBlock_ids (tm : ToolManager)
    (l : List (String × String × List (String × String))) :
    (l.map (execBlock tm)).map ToolResult.tool_use_id = l.map Prod.fst := by
  induction l with
  | nil => rfl
  | cons b l ih => simp [execBlock_id, ih]

/-- `_extract_text_response` returns the empty string on content with no
text block. -/
theorem extract_go_no_text :
    ∀ bs : List Block, (∀ b ∈ bs, isTextBlock b = false) →
      extractTextResponse.go bs = "" := by
  intro bs
  induction bs with
  | nil => intro; rfl
  | cons b bs ih =>
      intro h
      cases b with
      | text s => exact absurd (h _ (List.mem_cons_self _ _)) (by simp [isTextBlock])
      | toolUse id name input =>
          exact ih fun b hb => h b (List.mem_cons_of_mem _ hb)
      | other => exact ih fun b hb => h b (List.mem_cons_of_mem _ hb)

/-- `_extract_text_response` returns the first text block's text, skipping
any earlier non-text blocks. -/
theorem extract_go_first :
    ∀ (pre : List Block) (s : String) (post : List Block),
      (∀ b ∈ pre, isTextBlock b = false) →
      extractTextResponse.go (pre ++ Block.text s :: post) = s := by
  intro pre
  induction pre with
  | nil => intro s post _; rfl
  | cons b pre ih =>
      intro s post h
      cases b with
      | text t => exact absurd (h _ (List.mem_cons_self _ _)) (by simp [isTextBlock])
      | toolUse id name input =>
          exact ih s post fun b hb => h b (List.mem_cons_of_mem _ hb)
      | other => exact ih s post fun b hb => h b (List.mem_cons_of_mem _ hb)

/-- An in-place append at one reference leaves every other heap cell
unchanged. -/
theorem heapAppend_getD_ne (h : MsgHeap) (r r' : Nat) (m : Message)
    (hne : r' ≠ r) : (heapAppend h r m).getD r' [] = h.getD r' [] := by
  unfold heapAppend
  simp [List.getD_eq_getElem?_getD, List.getElem?_set_ne (fun hx => hne hx.symm)]

/-- The object-level round loop writes only to its own message-list cell:
every other cell of the heap is unchanged when it returns. -/
theorem handleToolLoopHGo_frame (client : Nat → Response) (tm : ToolManager) :
    ∀ (fuel : Nat) (response : Response) (heap : MsgHeap)
      (msgsRef roundCount r : Nat), r ≠ msgsRef →
      ((handleToolLoopHGo client tm fuel response heap msgsRef roundCount).2).getD r []
        = heap.getD r [] := by
  intro fuel
  induction fuel with
  | zero =>
      intro response heap msgsRef roundCount r hr
      rw [handleToolLoopHGo]
      by_cases h1 : response.stop_reason = "tool_use" <;> simp [h1]
  | succ fuel ih =>
      intro response heap msgsRef roundCount r hr
      rw [handleToolLoopHGo.eq_def]
      by_cases h1 : response.stop_reason = "tool_use"
      · simp only [h1, if_true]
        by_cases herr : (executeTools tm response).2 = true
        · rw [if_pos herr]
          rw [heapAppend_getD_ne _ _ _ _ hr, heapAppend_getD_ne _ _ _ _ hr]
        · rw [if_neg herr]
          rw [ih _ _ _ _ _ hr, heapAppend_getD_ne _ _ _ _ hr,
            heapAppend_getD_ne _ _ _ _ hr]
      · simp [h1]

/-! ### The claims -/

/-- C1: for every sequence of provider responses, `generate_response`
together with `_handle_tool_loop` issues exactly (rounds taken + 1) model
calls in total, the number of tool-execution rounds never exceeds
`MAX_TOOL_ROUNDS`, and hence at most `MAX_TOOL_ROUNDS + 1` model calls are
made even if every response keeps requesting tools.  The loop always
terminates: it is a total function of the response sequence. -/
theorem generate_response_call_bound (client : Nat → Response) (query : String)
    (hist : Option String) (tools : List ToolDef) (tm : Option ToolManager) :
    (generate_response client query hist tools tm).requests.length
        = (generate_response client query hist tools tm).loopLog.length + 1
    ∧ (generate_response client query hist tools tm).loopLog.length ≤ MAX_TOOL_ROUNDS
    ∧ (generate_response client query hist tools tm).requests.length
        ≤ MAX_TOOL_ROUNDS + 1 := by
  unfold generate_response
  cases tm with
  | none => simp
  | some t =>
      dsimp only
      by_cases hcond : (client 0).stop_reason = "tool_use" ∧ tools ≠ []
      · rw [if_pos hcond]
        have hb := (handleToolLoopAux_spec (fun n => client (n + 1)) t tools
          (match hist with
           | some h => SYSTEM_PROMPT ++ "\n\nPrevious conversation:\n" ++ h
           | none => SYSTEM_PROMPT)
          MAX_TOOL_ROUNDS (client 0) [⟨"user", MsgContent.str query⟩] 0 (by omega)).1
        simp only [Nat.sub_zero] at hb
        refine ⟨by simp [handleToolLoop, LoopResult.requests], ?_, ?_⟩
        · simpa [handleToolLoop] using hb
        · simp only [handleToolLoop, LoopResult.requests, List.length_cons,
            List.length_map]
          omega
      · rw [if_neg hcond]
        simp

/-- C2: in every round of the tool loop (round `i + 1`, log index `i`),
the follow-up model call offers the tool definitions (with tool_choice
auto) if and only if no tool invocation of that round errored and the
round counter after increment (`i + 1`) is still strictly below
`MAX_TOOL_ROUNDS`; in particular the call made after the last allowed
round never offers tools. -/
theorem handleToolLoop_tools_offered (client : Nat → Response) (tm : ToolManager)
    (tools : List ToolDef) (sys : String) (response : Response) (messages : List Message) :
    ∀ (i : Nat)
      (h : i < (handleToolLoop client tm tools sys response messages).log.length),
      ((handleToolLoop client tm tools sys response messages).log.get ⟨i, h⟩).req.tools
          = (if (executeTools tm ((handleToolLoop client tm tools sys response
                  messages).log.get ⟨i, h⟩).resp).2 = false ∧ i + 1 < MAX_TOOL_ROUNDS
             then some tools else none)
      ∧ (i + 1 = MAX_TOOL_ROUNDS →
          ((handleToolLoop client tm tools sys response messages).log.get ⟨i, h⟩).req.tools
            = none) := by
  intro i h
  obtain ⟨-, -, hc, -, -⟩ :=
    (handleToolLoopAux_spec client tm tools sys MAX_TOOL_ROUNDS response messages 0
      (by omega)).2 i (by simpa [handleToolLoop] using h)
  constructor
  · simpa [handleToolLoop] using hc
  · intro hlast
    have : ¬((executeTools tm ((handleToolLoopAux client tm tools sys response messages
        0).2.get ⟨i, by simpa [handleToolLoop] using h⟩).resp).2 = false
        ∧ 0 + i + 1 < MAX_TOOL_ROUNDS) := by
      rintro ⟨-, hx⟩; omega
    rw [if_neg this] at hc
    simpa [handleToolLoop] using hc

/-- Witness for C2: in the scenario where the first round's tool call
succeeds and the next response ends the turn, the round-1 model call
offers the tools (1 < MAX_TOOL_ROUNDS and no error). -/
theorem handleToolLoop_tools_offered_witness :
    0 < (handleToolLoop exClientEnd exTmOk exTools "s" exInit exMsgs).log.length
    ∧ (((handleToolLoop exClientEnd exTmOk exTools "s" exInit exMsgs).log.get
          ⟨0, by decide⟩).req.tools
        = (if (executeTools exTmOk ((handleToolLoop exClientEnd exTmOk exTools "s" exInit
                exMsgs).log.get ⟨0, by decide⟩).resp).2 = false ∧ 0 + 1 < MAX_TOOL_ROUNDS
           then some exTools else none)
       ∧ (0 + 1 = MAX_TOOL_ROUNDS →
           ((handleToolLoop exClientEnd exTmOk exTools "s" exInit exMsgs).log.get
             ⟨0, by decide⟩).req.tools = none)) :=
  ⟨by decide,
   handleToolLoop_tools_offered exClientEnd exTmOk exTools "s" exInit exMsgs 0 (by decide)⟩

/-- C3: every executed round appends the assistant's tool-use content and
then exactly one user-role message whose content is the list of tool
results, as the last two entries of that round's request; the results are
one per tool-use block of that assistant content, in the same order, each
carrying the call identifier of its originating block, and non-tool-use
blocks produce no result. -/
theorem handleToolLoop_round_messages (client : Nat → Response) (tm : ToolManager)
    (tools : List ToolDef) (sys : String) (response : Response) (messages : List Message) :
    ∀ (i : Nat)
      (h : i < (handleToolLoop client tm tools sys response messages).log.length),
      (∃ pre, ((handleToolLoop client tm tools sys response messages).log.get
          ⟨i, h⟩).req.messages =
          pre ++ [⟨"assistant", MsgContent.blocks ((handleToolLoop client tm tools sys response
                    messages).log.get ⟨i, h⟩).resp.content⟩,
                  ⟨"user", MsgContent.results (executeTools tm ((handleToolLoop client tm tools
                    sys response messages).log.get ⟨i, h⟩).resp).1⟩])
      ∧ (executeTools tm ((handleToolLoop client tm tools sys response messages).log.get
          ⟨i, h⟩).resp).1
          = (toolUseBlocks ((handleToolLoop client tm tools sys response messages).log.get
              ⟨i, h⟩).resp.content).map (execBlock tm)
      ∧ ((executeTools tm ((handleToolLoop client tm tools sys response messages).log.get
          ⟨i, h⟩).resp).1).map ToolResult.tool_use_id
          = (toolUseBlocks ((handleToolLoop client tm tools sys response messages).log.get
              ⟨i, h⟩).resp.content).map Prod.fst := by
  intro i h
  obtain ⟨-, -, -, hd, -⟩ :=
    (handleToolLoopAux_spec client tm tools sys MAX_TOOL_ROUNDS response messages 0
      (by omega)).2 i (by simpa [handleToolLoop] using h)
  refine ⟨by simpa [handleToolLoop] using hd, ?_, ?_⟩
  · simp [executeTools_eq]
  · simp [executeTools_eq, map_execBlock_ids, execBlock_id]

/-- Witness for C3: the single-tool-use scenario, round 1. -/
theorem handleToolLoop_round_messages_witness :
    0 < (handleToolLoop exClientEnd exTmOk exTools "s" exInit exMsgs).log.length
    ∧ ((∃ pre, ((handleToolLoop exClientEnd exTmOk exTools "s" exInit exMsgs).log.get
          ⟨0, by decide⟩).req.messages =
          pre ++ [⟨"assistant", MsgContent.blocks ((handleToolLoop exClientEnd exTmOk exTools
                    "s" exInit exMsgs).log.get ⟨0, by decide⟩).resp.content⟩,
                  ⟨"user", MsgContent.results (executeTools exTmOk ((handleToolLoop exClientEnd
                    exTmOk exTools "s" exInit exMsgs).log.get ⟨0, by decide⟩).resp).1⟩])
      ∧ (executeTools exTmOk ((handleToolLoop exClientEnd exTmOk exTools "s" exInit
          exMsgs).log.get ⟨0, by decide⟩).resp).1
          = (toolUseBlocks ((handleToolLoop exClientEnd exTmOk exTools "s" exInit
              exMsgs).log.get ⟨0, by decide⟩).resp.content).map (execBlock exTmOk)
      ∧ ((executeTools exTmOk ((handleToolLoop exClientEnd exTmOk exTools "s" exInit
          exMsgs).log.get ⟨0, by decide⟩).resp).1).map ToolResult.tool_use_id
          = (toolUseBlocks ((handleToolLoop exClientEnd exTmOk exTools "s" exInit
              exMsgs).log.get ⟨0, by decide⟩).resp.content).map Prod.fst) :=
  ⟨by decide,
   handleToolLoop_round_messages exClientEnd exTmOk exTools "s" exInit exMsgs 0 (by decide)⟩

/-- C5: if a tool raises during round `k` (log index `k - 1`), the loop
has made exactly `k` model calls beyond the initial response by the time
it returns, and no further tool rounds are attempted: the erroring round
is the last one, even when other tool-use blocks of the same batch
succeeded. -/
theorem handleToolLoop_error_stops (client : Nat → Response) (tm : ToolManager)
    (tools : List ToolDef) (sys : String) (response : Response) (messages : List Message) :
    ∀ (i : Nat)
      (h : i < (handleToolLoop client tm tools sys response messages).log.length),
      (executeTools tm ((handleToolLoop client tm tools sys response messages).log.get
          ⟨i, h⟩).resp).2 = true →
      (handleToolLoop client tm tools sys response messages).log.length = i + 1
      ∧ (handleToolLoop client tm tools sys response messages).requests.length = i + 1 := by
  intro i h herr
  obtain ⟨-, -, -, -, he⟩ :=
    (handleToolLoopAux_spec client tm tools sys MAX_TOOL_ROUNDS response messages 0
      (by omega)).2 i (by simpa [handleToolLoop] using h)
  have := he (by simpa [handleToolLoop] using herr)
  refine ⟨by simpa [handleToolLoop] using this.1, ?_⟩
  simp only [LoopResult.requests, List.length_map]
  simpa [handleToolLoop] using this.1

/-- Witness for C5: a tool that raises in round 1 leaves exactly one
model call made by the loop. -/
theorem handleToolLoop_error_stops_witness :
    0 < (handleToolLoop exClientEnd exTmErr exTools "s" exInit exMsgs).log.length
    ∧ (executeTools exTmErr ((handleToolLoop exClientEnd exTmErr exTools "s" exInit
        exMsgs).log.get ⟨0, by decide⟩).resp).2 = true
    ∧ ((handleToolLoop exClientEnd exTmErr exTools "s" exInit exMsgs).log.length = 0 + 1
       ∧ (handleToolLoop exClientEnd exTmErr exTools "s" exInit
           exMsgs).requests.length = 0 + 1) :=
  ⟨by decide, by decide,
   handleToolLoop_error_stops exClientEnd exTmErr exTools "s" exInit exMsgs 0
     (by decide) (by decide)⟩

/-- C4: a tool invocation that raises is caught, not propagated (the
executor is total): it yields a tool-result flagged `is_error` whose
content is the error text, `has_error` is set, and the loop then makes
exactly one final model call with no tools offered before returning —
whatever the stop condition of that final response (`client` is
arbitrary, so in particular at index `i`). -/
theorem tool_exception_flagged_and_final_call :
    (∀ (tm : ToolManager) (resp : Response) (id name : String)
        (input : List (String × String)) (e : String),
        Block.toolUse id name input ∈ resp.content → tm name input = Except.error e →
        (⟨id, "Error: " ++ e, true⟩ : ToolResult) ∈ (executeTools tm resp).1
        ∧ (executeTools tm resp).2 = true)
    ∧ (∀ (client : Nat → Response) (tm : ToolManager) (tools : List ToolDef) (sys : String)
        (response : Response) (messages : List Message) (i : Nat)
        (h : i < (handleToolLoop client tm tools sys response messages).log.length),
        (executeTools tm ((handleToolLoop client tm tools sys response messages).log.get
            ⟨i, h⟩).resp).2 = true →
        (handleToolLoop client tm tools sys response messages).requests.length = i + 1
        ∧ ((handleToolLoop client tm tools sys response messages).log.get ⟨i, h⟩).req.tools
            = none
        ∧ (handleToolLoop client tm tools sys response messages).finalResponse = client i
        ∧ (handleToolLoop client tm tools sys response messages).text
            = extractTextResponse (client i)) := by
  constructor
  · intro tm resp id name input e hmem htm
    have hb : (id, name, input) ∈ toolUseBlocks resp.content :=
      toolUseBlocks_mem id name input resp.content hmem
    have hres : (⟨id, "Error: " ++ e, true⟩ : ToolResult)
        ∈ (toolUseBlocks resp.content).map (execBlock tm) := by
      refine List.mem_map.mpr ⟨(id, name, input), hb, ?_⟩
      simp [execBlock, htm]
    constructor
    · rw [executeTools_eq]
      exact hres
    · rw [executeTools_eq]
      exact List.any_eq_true.mpr ⟨_, hres, rfl⟩
  · intro client tm tools sys response messages i h herr
    obtain ⟨-, -, hc, -, he⟩ :=
      (handleToolLoopAux_spec client tm tools sys MAX_TOOL_ROUNDS response messages 0
        (by omega)).2 i (by simpa [handleToolLoop] using h)
    have herr' : (executeTools tm ((handleToolLoopAux client tm tools sys response messages
        0).2.get ⟨i, by simpa [handleToolLoop] using h⟩).resp).2 = true := by
      simpa [handleToolLoop] using herr
    obtain ⟨hlen, hfin⟩ := he herr'
    rw [herr'] at hc
    simp only [Bool.true_eq_false, false_and, if_false] at hc
    refine ⟨?_, by simpa [handleToolLoop] using hc, ?_, ?_⟩
    · simp only [LoopResult.requests, List.length_map]
      simpa [handleToolLoop] using hlen
    · simpa [handleToolLoop] using hfin
    · have : (handleToolLoop client tm tools sys response messages).text
          = extractTextResponse
              (handleToolLoopAux client tm tools sys response messages 0).1 := rfl
      rw [this, hfin]
      simp

/-- Witness for C4: a tool that raises "boom" in round 1 produces the
flagged result and the loop makes its one final call without tools. -/
theorem tool_exception_flagged_and_final_call_witness :
    (Block.toolUse "t1" "search_course_content" [] ∈ exInit.content
     ∧ exTmErr "search_course_content" [] = Except.error "boom"
     ∧ (⟨"t1", "Error: " ++ "boom", true⟩ : ToolResult) ∈ (executeTools exTmErr exInit).1
     ∧ (executeTools exTmErr exInit).2 = true)
    ∧ (0 < (handleToolLoop exClientEnd exTmErr exTools "s" exInit exMsgs).log.length
       ∧ (handleToolLoop exClientEnd exTmErr exTools "s" exInit
           exMsgs).requests.length = 0 + 1
       ∧ ((handleToolLoop exClientEnd exTmErr exTools "s" exInit exMsgs).log.get
           ⟨0, by decide⟩).req.tools = none
       ∧ (handleToolLoop exClientEnd exTmErr exTools "s" exInit
           exMsgs).finalResponse = exClientEnd 0
       ∧ (handleToolLoop exClientEnd exTmErr exTools "s" exInit exMsgs).text
           = extractTextResponse (exClientEnd 0)) :=
  ⟨⟨by decide, rfl,
    (tool_exception_flagged_and_final_call.1 exTmErr exInit "t1" "search_course_content"
      [] "boom" (by decide) rfl).1,
    (tool_exception_flagged_and_final_call.1 exTmErr exInit "t1" "search_course_content"
      [] "boom" (by decide) rfl).2⟩,
   by decide,
   (tool_exception_flagged_and_final_call.2 exClientEnd exTmErr exTools "s" exInit exMsgs
     0 (by decide) (by decide)).1,
   (tool_exception_flagged_and_final_call.2 exClientEnd exTmErr exTools "s" exInit exMsgs
     0 (by decide) (by decide)).2.1,
   (tool_exception_flagged_and_final_call.2 exClientEnd exTmErr exTools "s" exInit exMsgs
     0 (by decide) (by decide)).2.2.1,
   (tool_exception_flagged_and_final_call.2 exClientEnd exTmErr exTools "s" exInit exMsgs
     0 (by decide) (by decide)).2.2.2⟩

/-- C6: when the initial response's stop condition is not tool-use,
`generate_response` makes zero additional model calls (one request in
total), enters no tool round, and returns the initial response's
extracted text. -/
theorem generate_response_direct (client : Nat → Response) (query : String)
    (hist : Option String) (tools : List ToolDef) (tm : Option ToolManager)
    (h : (client 0).stop_reason ≠ "tool_use") :
    (generate_response client query hist tools tm).requests.length = 1
    ∧ (generate_response client query hist tools tm).loopLog = []
    ∧ (generate_response client query hist tools tm).text
        = extractTextResponse (client 0) := by
  unfold generate_response
  cases tm with
  | none => simp
  | some t =>
      dsimp only
      rw [if_neg (by rintro ⟨h1, -⟩; exact h h1)]
      simp

/-- Witness for C6: an end-of-turn initial response. -/
theorem generate_response_direct_witness :
    (exClientEnd 0).stop_reason ≠ "tool_use"
    ∧ ((generate_response exClientEnd "q" none exTools (some exTmOk)).requests.length = 1
       ∧ (generate_response exClientEnd "q" none exTools (some exTmOk)).loopLog = []
       ∧ (generate_response exClientEnd "q" none exTools (some exTmOk)).text
           = extractTextResponse (exClientEnd 0)) :=
  ⟨by decide,
   generate_response_direct exClientEnd "q" none exTools (some exTmOk) (by decide)⟩

/-- C9: when the initial response wants a tool but the caller supplied no
tool manager or an empty tools list, `generate_response` never enters the
tool loop: one request in total, no round, and the returned text is the
initial response's first text block's text, or the empty string when the
tool-use response has no text block. -/
theorem generate_response_tool_use_without_loop (client : Nat → Response) (query : String)
    (hist : Option String) (tools : List ToolDef) (tm : Option ToolManager)
    (h : (client 0).stop_reason = "tool_use")
    (hmiss : tm = none ∨ tools = []) :
    (generate_response client query hist tools tm).requests.length = 1
    ∧ (generate_response client query hist tools tm).loopLog = []
    ∧ (generate_response client query hist tools tm).text
        = extractTextResponse (client 0)
    ∧ (∀ (pre : List Block) (s : String) (post : List Block),
        (client 0).content = pre ++ Block.text s :: post →
        (∀ b ∈ pre, isTextBlock b = false) →
        (generate_response client query hist tools tm).text = s)
    ∧ ((∀ b ∈ (client 0).content, isTextBlock b = false) →
        (generate_response client query hist tools tm).text = "") := by
  have hdirect : (generate_response client query hist tools tm).requests.length = 1
      ∧ (generate_response client query hist tools tm).loopLog = []
      ∧ (generate_response client query hist tools tm).text
          = extractTextResponse (client 0) := by
    unfold generate_response
    rcases hmiss with hmiss | hmiss
    · rw [hmiss]
      simp
    · cases tm with
      | none => simp
      | some t =>
          dsimp only
          rw [if_neg (by rintro ⟨-, hne⟩; exact hne hmiss)]
          simp
  refine ⟨hdirect.1, hdirect.2.1, hdirect.2.2, ?_, ?_⟩
  · intro pre s post hsplit hpre
    rw [hdirect.2.2]
    unfold extractTextResponse
    rw [hsplit]
    exact extract_go_first pre s post hpre
  · intro hno
    rw [hdirect.2.2]
    exact extract_go_no_text _ hno

/-- Witness for C9: a tool-use initial response with no tool manager
supplied; the response has no text block, so the text is empty. -/
theorem generate_response_tool_use_without_loop_witness :
    (exClientTool 0).stop_reason = "tool_use"
    ∧ ((generate_response exClientTool "q" none exTools none).requests.length = 1
       ∧ (generate_response exClientTool "q" none exTools none).loopLog = []
       ∧ (generate_response exClientTool "q" none exTools none).text
           = extractTextResponse (exClientTool 0))
    ∧ (generate_response exClientTool "q" none exTools none).text = "" :=
  ⟨by decide,
   ⟨(generate_response_tool_use_without_loop exClientTool "q" none exTools none
      (by decide) (Or.inl rfl)).1,
    (generate_response_tool_use_without_loop exClientTool "q" none exTools none
      (by decide) (Or.inl rfl)).2.1,
    (generate_response_tool_use_without_loop exClientTool "q" none exTools none
      (by decide) (Or.inl rfl)).2.2.1⟩,
   (generate_response_tool_use_without_loop exClientTool "q" none exTools none
      (by decide) (Or.inl rfl)).2.2.2.2 (by decide)⟩

/-- C10: `_extract_text_response` returns the text of the first block of
type `"text"`, ignoring tool-use blocks and later text blocks, and
returns the empty string when no text block exists; it never raises (it
is a total function). -/
theorem extractTextResponse_spec (resp : Response) :
    ((∀ b ∈ resp.content, isTextBlock b = false) → extractTextResponse resp = "")
    ∧ (∀ (pre : List Block) (s : String) (post : List Block),
        resp.content = pre ++ Block.text s :: post →
        (∀ b ∈ pre, isTextBlock b = false) →
        extractTextResponse resp = s) := by
  constructor
  · intro h
    exact extract_go_no_text resp.content h
  · intro pre s post hsplit h
    unfold extractTextResponse
    rw [hsplit]
    exact extract_go_first pre s post h

/-- Witness for C10: a response whose text block sits behind a non-text
block and before a later text block, and a response with no text block. -/
theorem extractTextResponse_spec_witness :
    (exTextResp.content = [Block.other] ++ Block.text "hi" :: [Block.text "later"]
     ∧ (∀ b ∈ [Block.other], isTextBlock b = false)
     ∧ extractTextResponse exTextResp = "hi")
    ∧ ((∀ b ∈ exInit.content, isTextBlock b = false)
       ∧ extractTextResponse exInit = "") :=
  ⟨⟨rfl, by decide,
    (extractTextResponse_spec exTextResp).2 [Block.other] "hi" [Block.text "later"]
      rfl (by decide)⟩,
   ⟨by decide, (extractTextResponse_spec exInit).1 (by decide)⟩⟩

/-- C7 (amended): when the tool loop exits because `MAX_TOOL_ROUNDS`
rounds were taken while the last model response still wants a tool, it
returns the extracted text of that final response — the text of its first
text block, or the empty string when that response carries no text
block. -/
theorem handleToolLoop_exhausted_text (client : Nat → Response) (tm : ToolManager)
    (tools : List ToolDef) (sys : String) (response : Response) (messages : List Message)
    (h1 : (handleToolLoop client tm tools sys response messages).log.length
            = MAX_TOOL_ROUNDS)
    (h2 : (handleToolLoop client tm tools sys response
            messages).finalResponse.stop_reason = "tool_use") :
    (handleToolLoop client tm tools sys response messages).text
        = extractTextResponse (handleToolLoop client tm tools sys response
            messages).finalResponse
    ∧ ((∀ b ∈ (handleToolLoop client tm tools sys response
          messages).finalResponse.content, isTextBlock b = false) →
        (handleToolLoop client tm tools sys response messages).text = "") := by
  refine ⟨rfl, fun hno => ?_⟩
  exact extract_go_no_text _ hno

/-- Witness for C7 (amended): every response requests a tool and has no
text block, so after the two allowed rounds the loop returns "". -/
theorem handleToolLoop_exhausted_text_witness :
    (handleToolLoop exClientTool exTmOk exTools "s" exInit exMsgs).log.length
        = MAX_TOOL_ROUNDS
    ∧ (handleToolLoop exClientTool exTmOk exTools "s" exInit
        exMsgs).finalResponse.stop_reason = "tool_use"
    ∧ (∀ b ∈ (handleToolLoop exClientTool exTmOk exTools "s" exInit
        exMsgs).finalResponse.content, isTextBlock b = false)
    ∧ (handleToolLoop exClientTool exTmOk exTools "s" exInit exMsgs).text = "" :=
  ⟨by decide, by decide, by decide,
   (handleToolLoop_exhausted_text exClientTool exTmOk exTools "s" exInit exMsgs
     (by decide) (by decide)).2 (by decide)⟩

/-- Counterexample to C7 as stated: the loop exhausts its two rounds with
the final response still requesting a tool, yet that response also
carries a text block "leftover", and the loop returns "leftover", not the
empty text the claim asserts. -/
theorem handleToolLoop_exhausted_text_counterexample :
    (handleToolLoop
        (fun n => if n = 0
          then ⟨"tool_use", [Block.toolUse "t2" "search_course_content" []]⟩
          else ⟨"tool_use", [Block.text "leftover",
                             Block.toolUse "t3" "search_course_content" []]⟩)
        exTmOk exTools "s" exInit exMsgs).log.length = MAX_TOOL_ROUNDS
    ∧ (handleToolLoop
        (fun n => if n = 0
          then ⟨"tool_use", [Block.toolUse "t2" "search_course_content" []]⟩
          else ⟨"tool_use", [Block.text "leftover",
                             Block.toolUse "t3" "search_course_content" []]⟩)
        exTmOk exTools "s" exInit exMsgs).finalResponse.stop_reason = "tool_use"
    ∧ (handleToolLoop
        (fun n => if n = 0
          then ⟨"tool_use", [Block.toolUse "t2" "search_course_content" []]⟩
          else ⟨"tool_use", [Block.text "leftover",
                             Block.toolUse "t3" "search_course_content" []]⟩)
        exTmOk exTools "s" exInit exMsgs).text = "leftover"
    ∧ (handleToolLoop
        (fun n => if n = 0
          then ⟨"tool_use", [Block.toolUse "t2" "search_course_content" []]⟩
          else ⟨"tool_use", [Block.text "leftover",
                             Block.toolUse "t3" "search_course_content" []]⟩)
        exTmOk exTools "s" exInit exMsgs).text ≠ "" := by
  decide

/-- C8: `_handle_tool_loop` does not mutate the caller's message-list
object: it works on `messages.copy()`, so after the loop returns, the
heap cell the caller passed in holds the same list as before. -/
theorem handleToolLoopH_frame (client : Nat → Response) (tm : ToolManager)
    (heap : MsgHeap) (msgsRef : Nat) (response : Response)
    (h : msgsRef < heap.length) :
    ((handleToolLoopH client tm heap msgsRef response).2).getD msgsRef []
      = heap.getD msgsRef [] := by
  unfold handleToolLoopH
  rw [handleToolLoopHGo_frame client tm MAX_TOOL_ROUNDS response
    (heap ++ [heap.getD msgsRef []]) heap.length 0 msgsRef (by omega)]
  rw [List.getD_eq_getElem?_getD, List.getD_eq_getElem?_getD,
    List.getElem?_append, if_pos h]

/-- Witness for C8: a two-round run leaves the caller's list at reference
0 untouched. -/
theorem handleToolLoopH_frame_witness :
    0 < exHeap.length
    ∧ ((handleToolLoopH exClientTool exTmOk exHeap 0 exInit).2).getD 0 []
        = exHeap.getD 0 [] :=
  ⟨by decide, handleToolLoopH_frame exClientTool exTmOk exHeap 0 exInit (by decide)⟩

end AIGenerator
